import Mathlib

/-!
Shallow embedding of the Bine Python API (BineProject/Bine-Python-API).

The embedding models the three source files of the repository:

* src/bine/database.py — the SQL-backed store: the MetaData checkpoint
  table (SQLBasedHandler.set_last_block / get_last_block), the ItemData
  balance table (BineItemFeature.add / remove / get_amount /
  get_user_data), and the MarketLots / MarketDeals tables
  (BineMarketFeature.add_lot_data / add_lot_bought_data /
  add_lot_canceled / get_items).
* src/bine/context_editor.py — BineContextEditor and its operations
  (add_block, create_item, remove_item, transfer_item, place_lot,
  buy_lot, cancel_lot).

Modelling decisions, each taken from the concrete behaviour of the
source and of the MySQL store it drives (the code connects through
mysql.connector and uses MySQL-specific SQL):

* Tables are lists of row structures; a MySQL session sees its own
  uncommitted writes, so the store state is a pair (committed, working):
  every statement acts on the working copy and COMMIT copies working
  over committed.
* Python values that may be either str or int (the 0x0 null-address
  sentinel passed by create_item / remove_item) are `PyVal`;
  `int(x, base=16)` raises TypeError on an int argument when a base is
  given, which the embedding returns as an explicit error value.
* MySQL evaluates the assignments of a single-table UPDATE left to
  right, and an expression in a later assignment sees the value a
  column was given by an earlier assignment in the same statement
  (MySQL Reference Manual, "UPDATE Statement").  Hence in
  add_lot_bought_data the IF over `amount` sees the already decremented
  amount.
* The `price` column of MarketLots is VARCHAR(80), so MIN(price)
  compares strings under the column collation, which on UTF-8 digit
  strings is comparison by code point; lexLt below is that comparison.
-/

namespace Bine

/-- Errors the Python code can raise on the paths the claims exercise:
TypeError from `int(x, base=16)` on a non-string, ValueError from the
same call on a malformed string, and the MySQL IntegrityError raised by
an INSERT that violates a primary-key or foreign-key constraint. -/
inductive PyError where
  | typeError
  | valueError
  | integrityError
deriving DecidableEq, Repr

/-- A Python value that is either an int or a str; the address
parameters of transfer_item receive the integer sentinel 0x0 from
create_item and remove_item, and strings otherwise. -/
inductive PyVal where
  | pyInt (n : Int)
  | pyStr (s : String)
deriving DecidableEq, Repr

/-- Value of one hexadecimal digit, as accepted by Python int(-, 16). -/
def hexVal (c : Char) : Option Nat :=
  if '0' ≤ c ∧ c ≤ '9' then some (c.toNat - '0'.toNat)
  else if 'a' ≤ c ∧ c ≤ 'f' then some (c.toNat - 'a'.toNat + 10)
  else if 'A' ≤ c ∧ c ≤ 'F' then some (c.toNat - 'A'.toNat + 10)
  else none

/-- Accumulating evaluation of a hexadecimal digit string. -/
def hexDigitsAux : List Char → Nat → Option Nat
  | [], acc => some acc
  | c :: rest, acc =>
    match hexVal c with
    | some d => hexDigitsAux rest (16 * acc + d)
    | none => none

/-- Value of a nonempty hexadecimal digit string, none otherwise. -/
def hexDigitsVal : List Char → Option Nat
  | [] => none
  | l => hexDigitsAux l 0

/-- Digits of a hexadecimal literal after an optional 0x / 0X prefix. -/
def parseHexCore (l : List Char) : Option Nat :=
  match l with
  | '0' :: 'x' :: rest => hexDigitsVal rest
  | '0' :: 'X' :: rest => hexDigitsVal rest
  | _ => hexDigitsVal l

/-- Python `int(s, base=16)` on a string: optional sign, optional 0x
prefix, then hexadecimal digits (the inputs of this development carry
no surrounding whitespace or underscores).  none models ValueError. -/
def parseHexStr (s : String) : Option Int :=
  match s.data with
  | '-' :: rest => (parseHexCore rest).map (fun n => -(n : Int))
  | '+' :: rest => (parseHexCore rest).map (fun n => (n : Int))
  | l => (parseHexCore l).map (fun n => (n : Int))

/-- Python `hex(n)`: 0x-prefixed lowercase hexadecimal, with a leading
minus sign for negative arguments. -/
def pyHex (n : Int) : String :=
  if n < 0 then "-0x" ++ String.mk (Nat.toDigits 16 n.natAbs)
  else "0x" ++ String.mk (Nat.toDigits 16 n.natAbs)

/-- Decimal string form an integer takes when MySQL stores it into a
VARCHAR column (and Python str(n)). -/
def pyIntStr (n : Int) : String := toString n

/-- Row of the ItemData table: address VARCHAR, item VARCHAR (the
hex-string item id), amount INT; primary key (address, item). -/
structure ItemRow where
  address : String
  item : String
  amount : Int
deriving DecidableEq, Repr

/-- Row of the MarketLots table: lot_id BIGINT primary key, owner and
item_id and price VARCHAR, amount BIGINT, status VARCHAR defaulting to
ACTIVE. -/
structure LotRow where
  lot_id : Int
  owner : String
  item_id : String
  price : String
  amount : Int
  status : String
deriving DecidableEq, Repr

/-- Row of the MarketDeals table: deal_id BIGINT AUTO_INCREMENT primary
key, lot_id BIGINT with a foreign key into MarketLots, buyer and amount
VARCHAR. -/
structure DealRow where
  deal_id : Int
  lot_id : Int
  buyer : String
  amount : String
deriving DecidableEq, Repr

/-- Row of the MetaData checkpoint table: name VARCHAR primary key,
lastBlock BIGINT. -/
structure MetaRow where
  name : String
  lastBlock : Int
deriving DecidableEq, Repr

/-- The four tables of the bine schema plus the AUTO_INCREMENT counter
of MarketDeals (MySQL starts it at 1). -/
structure DBTables where
  metaData : List MetaRow
  itemData : List ItemRow
  marketLots : List LotRow
  marketDeals : List DealRow
  nextDealId : Int
deriving DecidableEq, Repr

/-- Store state of one mysql.connector session: the committed state and
the working state the open transaction sees; statements act on working
and COMMIT publishes it. -/
structure DBState where
  committed : DBTables
  working : DBTables
deriving DecidableEq, Repr

/-- State of a BineContextEditor: its store handle, the per-instance
lot_id counter (class default -1) and the in-memory
_last_block_number counter (constructor sets 0). -/
structure EditorState where
  db : DBState
  lot_id : Int
  last_block_number : Int
deriving DecidableEq, Repr

/-- Empty tables, as created by init_db on a fresh schema. -/
def emptyTables : DBTables := ⟨[], [], [], [], 1⟩

/-- Fresh store: nothing committed, nothing pending. -/
def freshDB : DBState := ⟨emptyTables, emptyTables⟩

/-- Fresh editor over a fresh store. -/
def freshEditor : EditorState := ⟨freshDB, -1, 0⟩

/-- COMMIT: the working state becomes the committed state
(SQLBasedHandler.commit). -/
def commitDB (s : DBState) : DBState := ⟨s.working, s.working⟩

namespace SQLBasedHandler

/-- SQLBasedHandler.set_last_block: INSERT INTO MetaData VALUES
(monitor_name, block_num) ON DUPLICATE KEY UPDATE lastBlock =
block_num — an upsert keyed by the name primary key. -/
def set_last_block (monitor_name : String) (block_num : Int)
    (t : List MetaRow) : List MetaRow :=
  if t.any (fun r => r.name == monitor_name) then
    t.map (fun r =>
      if r.name == monitor_name then { r with lastBlock := block_num } else r)
  else t ++ [⟨monitor_name, block_num⟩]

/-- SQLBasedHandler.get_last_block: SELECT lastBlock FROM MetaData WHERE
name = monitor_name; fetchone returning no row yields 0. -/
def get_last_block (monitor_name : String) (t : List MetaRow) : Int :=
  match t.find? (fun r => r.name == monitor_name) with
  | none => 0
  | some r => r.lastBlock

end SQLBasedHandler

namespace BineItemFeature

/-- BineItemFeature.get_amount: SELECT amount FROM ItemData WHERE
address = user AND item = hex(item_id); (res or [0])[0] yields 0 when
no row matches. -/
def get_amount (item_id : Int) (user : String) (t : List ItemRow) : Int :=
  match t.find? (fun r => r.address == user && r.item == pyHex item_id) with
  | none => 0
  | some r => r.amount

/-- BineItemFeature.add: INSERT INTO ItemData VALUES (user,
hex(item_id), volume) ON DUPLICATE KEY UPDATE amount = volume + c,
where c is the current amount read by get_amount while the parameter
tuple is built, before the statement runs. -/
def add (item_id : Int) (user : String) (volume : Int)
    (t : List ItemRow) : List ItemRow :=
  let c := get_amount item_id user t
  if t.any (fun r => r.address == user && r.item == pyHex item_id) then
    t.map (fun r =>
      if r.address == user && r.item == pyHex item_id then
        { r with amount := volume + c } else r)
  else t ++ [⟨user, pyHex item_id, volume⟩]

/-- BineItemFeature.remove: UPDATE ItemData SET amount = volume - c
WHERE address = user AND item = hex(item_id), where c is the current
amount read by get_amount while the parameter tuple is built.  The
statement writes volume - c, the parameters being bound in that
order in the source. -/
def remove (item_id : Int) (user : String) (volume : Int)
    (t : List ItemRow) : List ItemRow :=
  let c := get_amount item_id user t
  t.map (fun r =>
    if r.address == user && r.item == pyHex item_id then
      { r with amount := volume - c } else r)

/-- BineItemFeature.get_user_data: SELECT item, amount FROM ItemData
WHERE address = user AND amount > 0. -/
def get_user_data (user : String) (t : List ItemRow) : List (String × Int) :=
  (t.filter (fun r => r.address == user && decide (0 < r.amount))).map
    (fun r => (r.item, r.amount))

end BineItemFeature

/-- Lexicographic comparison of two character lists by code point.
MySQL compares VARCHAR values character by character under the column
collation; on the ASCII digit strings this schema stores, that order is
code-point order. -/
def lexLt : List Char → List Char → Bool
  | _, [] => false
  | [], _ :: _ => true
  | a :: as, b :: bs =>
    if a = b then lexLt as bs else decide (a.toNat < b.toNat)

/-- Comparison of two VARCHAR values as MySQL MIN compares them. -/
def strLt (a b : String) : Bool := lexLt a.data b.data

/-- One folding step of the MIN aggregate over a VARCHAR column: keep
the smaller string. -/
def strMin (a b : String) : String := if strLt b a then b else a

/-- MIN aggregate over the values of a VARCHAR column: none on an empty
group, otherwise the least string under the collation order. -/
def sqlMIN : List String → Option String
  | [] => none
  | p :: rest => some (rest.foldl strMin p)

namespace BineMarketFeature

/-- BineMarketFeature.add_lot_data: INSERT INTO MarketLots (lot_id,
owner, item_id, price, amount) VALUES (lot_id, owner, hex(item_id),
price, amount); the status column takes its ACTIVE default, the price
integer is stored in the VARCHAR column in decimal form, and a
duplicate lot_id violates the primary key. -/
def add_lot_data (lot_id : Int) (owner : String) (item_id : Int)
    (price : Int) (amount : Int) (w : DBTables) : Except PyError DBTables :=
  if w.marketLots.any (fun r => r.lot_id == lot_id) then
    .error .integrityError
  else
    .ok { w with marketLots :=
      w.marketLots ++ [⟨lot_id, owner, pyHex item_id, pyIntStr price, amount, "ACTIVE"⟩] }

/-- Effect of the fill UPDATE on the matching lot row: SET amount =
amount - a, status = IF(amount - a > 0, "PARTIALLY_FILLED", "FILLED").
MySQL evaluates the two assignments left to right and the IF in the
second assignment reads the amount column as updated by the first, so
the guard compares the already decremented amount against a once more. -/
def lotFillRow (a : Int) (r : LotRow) : LotRow :=
  let amt := r.amount - a
  { r with amount := amt,
           status := if amt - a > 0 then "PARTIALLY_FILLED" else "FILLED" }

/-- BineMarketFeature.add_lot_bought_data: INSERT INTO MarketDeals
(lot_id, buyer, amount) VALUES (lot_id, buyer, amount) — the foreign
key rejects an unknown lot_id and the amount integer is stored in the
VARCHAR column in decimal form — then the fill UPDATE on MarketLots
WHERE lot_id = lot_id. -/
def add_lot_bought_data (lot_id : Int) (buyer : String) (amount : Int)
    (w : DBTables) : Except PyError DBTables :=
  if w.marketLots.any (fun r => r.lot_id == lot_id) then
    .ok { w with
      marketDeals := w.marketDeals ++ [⟨w.nextDealId, lot_id, buyer, pyIntStr amount⟩],
      nextDealId := w.nextDealId + 1,
      marketLots := w.marketLots.map (fun r =>
        if r.lot_id == lot_id then lotFillRow amount r else r) }
  else .error .integrityError

/-- BineMarketFeature.add_lot_canceled: UPDATE MarketLots SET amount =
0, status = 'CANCELED' WHERE lot_id = lot_id; matching no row is a
silent no-op. -/
def add_lot_canceled (lot_id : Int) (l : List LotRow) : List LotRow :=
  l.map (fun r =>
    if r.lot_id == lot_id then { r with amount := 0, status := "CANCELED" } else r)

/-- BineMarketFeature.get_items: SELECT item_id, MIN(price) FROM
MarketLots GROUP BY item_id — no status filter, and MIN aggregates the
VARCHAR price column under the string order. -/
def get_items (l : List LotRow) : List (String × String) :=
  ((l.map (fun r => r.item_id)).dedup).filterMap (fun k =>
    (sqlMIN ((l.filter (fun r => r.item_id == k)).map (fun r => r.price))).map
      (fun m => (k, m)))

end BineMarketFeature

/-- Lookup of a lot row by its primary key. -/
def findLot (l : List LotRow) (id : Int) : Option LotRow :=
  l.find? (fun r => r.lot_id == id)

namespace BineContextEditor

/-- Working-state update of the ItemData table inside an editor. -/
def updItems (st : EditorState) (f : List ItemRow → List ItemRow) : EditorState :=
  { st with db := { st.db with working :=
      { st.db.working with itemData := f st.db.working.itemData } } }

/-- Working-state update of the MarketLots table inside an editor. -/
def updLots (st : EditorState) (f : List LotRow → List LotRow) : EditorState :=
  { st with db := { st.db with working :=
      { st.db.working with marketLots := f st.db.working.marketLots } } }

/-- Working-state update of the MetaData table inside an editor. -/
def updMeta (st : EditorState) (f : List MetaRow → List MetaRow) : EditorState :=
  { st with db := { st.db with working :=
      { st.db.working with metaData := f st.db.working.metaData } } }

/-- Replacement of the whole working state inside an editor. -/
def setWorking (st : EditorState) (w : DBTables) : EditorState :=
  { st with db := { st.db with working := w } }

/-- db_handler.commit() seen from the editor. -/
def commitEd (st : EditorState) : EditorState :=
  { st with db := commitDB st.db }

/-- BineContextEditor.add_block: increment the in-memory
_last_block_number, persist it with set_last_block under the class
name "BineContextEditor", then commit. -/
def add_block (st : EditorState) : EditorState :=
  let n := st.last_block_number + 1
  commitEd (updMeta { st with last_block_number := n }
    (SQLBasedHandler.set_last_block "BineContextEditor" n))

/-- BineContextEditor.transfer_item(to, amount, transfer_from,
item_id): evaluate int(transfer_from, base=16) — TypeError on the
integer sentinel, ValueError on a malformed string — and when nonzero
run the items.remove write; then evaluate int(to, base=16) the same way
and when nonzero run the items.add write; then commit.  An exception
leaves every write already issued pending and uncommitted. -/
def transfer_item («to» : PyVal) (amount : Int) (transfer_from : PyVal)
    (item_id : Int) (st : EditorState) : Except PyError Unit × EditorState :=
  match transfer_from with
  | .pyInt _ => (.error .typeError, st)
  | .pyStr fs =>
    match parseHexStr fs with
    | none => (.error .valueError, st)
    | some fv =>
      let st1 := if fv ≠ 0 then
          updItems st (fun t => BineItemFeature.remove item_id fs amount t)
        else st
      match «to» with
      | .pyInt _ => (.error .typeError, st1)
      | .pyStr ts =>
        match parseHexStr ts with
        | none => (.error .valueError, st1)
        | some tv =>
          let st2 := if tv ≠ 0 then
              updItems st1 (fun t => BineItemFeature.add item_id ts amount t)
            else st1
          (.ok (), commitEd st2)

/-- BineContextEditor.create_item(owner, amount, item_id) =
transfer_item(owner, amount, 0x0, item_id); the sentinel is the
integer 0x0, not a string. -/
def create_item (owner : String) (amount : Int) (item_id : Int)
    (st : EditorState) : Except PyError Unit × EditorState :=
  transfer_item (.pyStr owner) amount (.pyInt 0) item_id st

/-- BineContextEditor.remove_item(owner, amount, item_id) =
transfer_item(0x0, amount, owner, item_id); the sentinel is the
integer 0x0, not a string. -/
def remove_item (owner : String) (amount : Int) (item_id : Int)
    (st : EditorState) : Except PyError Unit × EditorState :=
  transfer_item (.pyInt 0) amount (.pyStr owner) item_id st

/-- BineContextEditor.place_lot: increment the lot_id counter, insert
the new lot with market.add_lot_data, commit, return the counter; a
primary-key violation propagates after the counter was already
incremented and before commit. -/
def place_lot (owner : String) (item_id : Int) (price : Int) (amount : Int)
    (st : EditorState) : Except PyError Int × EditorState :=
  let lid := st.lot_id + 1
  let st1 := { st with lot_id := lid }
  match BineMarketFeature.add_lot_data lid owner item_id price amount st1.db.working with
  | .error e => (.error e, st1)
  | .ok w => (.ok lid, commitEd (setWorking st1 w))

/-- BineContextEditor.buy_lot: market.add_lot_bought_data then commit;
a foreign-key violation propagates before any row changes. -/
def buy_lot (lot_id : Int) (buyer : String) (amount : Int)
    (st : EditorState) : Except PyError Unit × EditorState :=
  match BineMarketFeature.add_lot_bought_data lot_id buyer amount st.db.working with
  | .error e => (.error e, st)
  | .ok w => (.ok (), commitEd (setWorking st w))

/-- BineContextEditor.cancel_lot: market.add_lot_canceled then commit;
this path raises nothing. -/
def cancel_lot (lot_id : Int) (st : EditorState) : EditorState :=
  commitEd (updLots st (BineMarketFeature.add_lot_canceled lot_id))

end BineContextEditor

/-- Iterated add_block, modelling n successive recordBlockProcessed
calls. -/
def addBlocks : Nat → EditorState → EditorState
  | 0, st => st
  | n + 1, st => BineContextEditor.add_block (addBlocks n st)

end Bine

deriving instance DecidableEq for Except

namespace Bine

/-! Helper lemmas. -/

/-- Char.toNat determines the character. -/
theorem char_toNat_inj {a b : Char} (h : a.toNat = b.toNat) : a = b := by
  have h2 := congrArg Char.ofNat h
  rwa [Char.ofNat_toNat, Char.ofNat_toNat] at h2

/-- lexLt is irreflexive. -/
theorem lexLt_irrefl (l : List Char) : lexLt l l = false := by
  induction l with
  | nil => rfl
  | cons a t ih => simp [lexLt, ih]

/-- lexLt is transitive. -/
theorem lexLt_trans : ∀ {a b c : List Char},
    lexLt a b = true → lexLt b c = true → lexLt a c = true := by
  intro a
  induction a with
  | nil =>
    intro b c _ h2
    cases c with
    | nil => cases b <;> simp [lexLt] at h2
    | cons z zs => simp [lexLt]
  | cons x xs ih =>
    intro b c h1 h2
    cases b with
    | nil => simp [lexLt] at h1
    | cons y ys =>
      cases c with
      | nil => simp [lexLt] at h2
      | cons z zs =>
        simp only [lexLt] at h1 h2 ⊢
        by_cases hxy : x = y
        · subst hxy
          simp only [if_pos rfl] at h1
          by_cases hyz : x = z
          · subst hyz
            simp only [if_pos rfl] at h2 ⊢
            exact ih h1 h2
          · simp only [if_neg hyz] at h2 ⊢
            exact h2
        · simp only [if_neg hxy, decide_eq_true_eq] at h1
          by_cases hyz : y = z
          · have h1' : x.toNat < z.toNat := by rw [← hyz]; exact h1
            have hxz : x ≠ z := by
              intro h
              rw [h] at h1'
              omega
            simp only [if_neg hxz, decide_eq_true_eq]
            exact h1'
          · simp only [if_neg hyz, decide_eq_true_eq] at h2
            have hxz : x ≠ z := by
              intro h
              rw [h] at h1
              omega
            simp only [if_neg hxz, decide_eq_true_eq]
            omega

/-- If neither list is lexicographically below the other, they are
equal. -/
theorem lexLt_eq_of_not : ∀ {a b : List Char},
    lexLt a b = false → lexLt b a = false → a = b := by
  intro a
  induction a with
  | nil =>
    intro b h1 _
    cases b with
    | nil => rfl
    | cons y ys => simp [lexLt] at h1
  | cons x xs ih =>
    intro b h1 h2
    cases b with
    | nil => simp [lexLt] at h2
    | cons y ys =>
      simp only [lexLt] at h1 h2
      by_cases hxy : x = y
      · subst hxy
        simp only [if_pos rfl] at h1 h2
        rw [ih h1 h2]
      · have hyx : y ≠ x := fun h => hxy h.symm
        simp only [if_neg hxy, decide_eq_false_iff_not] at h1
        simp only [if_neg hyx, decide_eq_false_iff_not] at h2
        exact absurd (char_toNat_inj (by omega)) hxy

/-- A list strictly below another is not also strictly above it. -/
theorem lexLt_asymm {a b : List Char} (h : lexLt a b = true) :
    lexLt b a = false := by
  cases hba : lexLt b a with
  | false => rfl
  | true =>
    have h2 := lexLt_trans h hba
    rw [lexLt_irrefl] at h2
    exact absurd h2 (by simp)

/-- Reflexive-transitive closure step for the negated order: a chain of
two not-strictly-below facts composes. -/
theorem strLt_false_trans {a b c : String} (h1 : strLt a b = false)
    (h2 : strLt b c = false) : strLt a c = false := by
  unfold strLt at *
  cases hac : lexLt a.data c.data with
  | false => rfl
  | true =>
    cases hcb : lexLt c.data b.data with
    | false =>
      have heq := lexLt_eq_of_not h2 hcb
      rw [← heq] at hac
      rw [hac] at h1
      exact absurd h1 (by simp)
    | true =>
      have h3 := lexLt_trans hac hcb
      rw [h3] at h1
      exact absurd h1 (by simp)

/-- strLt is irreflexive. -/
theorem strLt_irrefl (a : String) : strLt a a = false := lexLt_irrefl a.data

/-- The strMin of two strings is one of them. -/
theorem strMin_choice (a b : String) : strMin a b = a ∨ strMin a b = b := by
  unfold strMin
  by_cases h : strLt b a = true
  · right
    simp [h]
  · left
    simp [h]

/-- Neither argument is strictly below the strMin of the two. -/
theorem strMin_not_gt (a b : String) :
    strLt a (strMin a b) = false ∧ strLt b (strMin a b) = false := by
  unfold strMin
  by_cases h : strLt b a = true
  · rw [if_pos h]
    exact ⟨lexLt_asymm h, strLt_irrefl b⟩
  · rw [if_neg h]
    have hf : strLt b a = false := by
      cases hba : strLt b a
      · rfl
      · exact absurd hba h
    exact ⟨strLt_irrefl a, hf⟩

/-- The fold of strMin over a list yields its seed or one of its
elements. -/
theorem foldl_strMin_mem (l : List String) (p : String) :
    l.foldl strMin p = p ∨ l.foldl strMin p ∈ l := by
  induction l generalizing p with
  | nil => left; rfl
  | cons a t ih =>
    rcases ih (strMin p a) with h | h
    · rcases strMin_choice p a with h2 | h2
      · left
        rw [List.foldl_cons, h, h2]
      · right
        rw [List.foldl_cons, h, h2]
        exact List.mem_cons_self a t
    · right
      rw [List.foldl_cons]
      exact List.mem_cons_of_mem a h

/-- No element of the folded list, nor the seed, is strictly below the
fold of strMin. -/
theorem foldl_strMin_least (l : List String) (p : String) :
    strLt p (l.foldl strMin p) = false ∧
      ∀ s ∈ l, strLt s (l.foldl strMin p) = false := by
  induction l generalizing p with
  | nil => exact ⟨strLt_irrefl p, by simp⟩
  | cons a t ih =>
    obtain ⟨h1, h2⟩ := ih (strMin p a)
    obtain ⟨hp, ha⟩ := strMin_not_gt p a
    rw [List.foldl_cons]
    refine ⟨strLt_false_trans hp h1, ?_⟩
    intro s hs
    rcases List.mem_cons.mp hs with rfl | hs
    · exact strLt_false_trans ha h1
    · exact h2 s hs

/-- find? over a map by a key-preserving function. -/
theorem find_map_lot (f : LotRow → LotRow) (hf : ∀ r, (f r).lot_id = r.lot_id)
    (l : List LotRow) (id : Int) :
    (l.map f).find? (fun r => r.lot_id == id) =
      (l.find? (fun r => r.lot_id == id)).map f := by
  induction l with
  | nil => rfl
  | cons a t ih =>
    simp only [List.map_cons, List.find?_cons]
    rw [hf a]
    cases h : (a.lot_id == id) with
    | true => rfl
    | false => exact ih

/-- find? in a list extended on the right, when the left part has no
match. -/
theorem find_append_right {α : Type} (p : α → Bool) (l : List α) (x : α)
    (h : l.find? p = none) :
    (l ++ [x]).find? p = if p x then some x else none := by
  induction l with
  | nil =>
    simp [List.find?_cons]
    cases hp : p x <;> simp [hp]
  | cons a t ih =>
    have hall := List.find?_eq_none.mp h
    have hpa : p a = false := by
      have hmem := hall a (List.mem_cons_self a t)
      cases hp : p a
      · rfl
      · exact absurd hp hmem
    have ht : t.find? p = none :=
      List.find?_eq_none.mpr (fun y hy => hall y (List.mem_cons_of_mem a hy))
    rw [List.cons_append, List.find?_cons, hpa]
    exact ih ht

end Bine

namespace Bine

/-- Order book produced by placing two lots for item 1 at prices 9 and
100 on a fresh editor. -/
def lotTable9 : List LotRow :=
  ((BineContextEditor.place_lot "0xBB" 1 100 5
    (BineContextEditor.place_lot "0xAA" 1 9 5 freshEditor).2).2).db.committed.marketLots

/-- Fresh editor whose open transaction already holds a balance of 10
for account 0xAA and item 1. -/
def seededEditor : EditorState :=
  BineContextEditor.setWorking freshEditor
    { emptyTables with itemData := [⟨"0xAA", pyHex 1, 10⟩] }

/-- C1.  The claim says BineItemFeature.remove leaves a key holding
balance c at c − amount, and that scenario 1 followed by
removeItem("0xAA", 3, 1) leaves item 1 at 7.  The source binds the
UPDATE parameter as volume − current: with current balance 10 and
amount 3 the row is left at 3 − 10 = −7, not 7. -/
theorem remove_writes_volume_minus_current :
    BineItemFeature.remove 1 "0xAA" 3 [⟨"0xAA", pyHex 1, 10⟩] =
      [⟨"0xAA", pyHex 1, -7⟩] ∧
    BineItemFeature.remove 1 "0xAA" 3 [⟨"0xAA", pyHex 1, 10⟩] ≠
      [⟨"0xAA", pyHex 1, 7⟩] := by decide

/-- C2.  The claim says a fill of a on remaining r yields status
PARTIALLY_FILLED whenever r − a > 0.  MySQL evaluates the UPDATE
assignments left to right, so the status IF reads the already
decremented amount: filling 6 of a fresh lot of 10 leaves remaining 4
yet status FILLED, because (10 − 6) − 6 ≤ 0. -/
theorem fill_marks_filled_with_positive_remaining :
    (BineContextEditor.buy_lot 0 "0xBB" 6
        (BineContextEditor.place_lot "0xAA" 1 100 10 freshEditor).2).1 = .ok () ∧
    findLot ((BineContextEditor.buy_lot 0 "0xBB" 6
        (BineContextEditor.place_lot "0xAA" 1 100 10 freshEditor).2).2).db.committed.marketLots 0 =
      some ⟨0, "0xAA", pyHex 1, pyIntStr 100, 4, "FILLED"⟩ ∧
    ((BineContextEditor.buy_lot 0 "0xBB" 6
        (BineContextEditor.place_lot "0xAA" 1 100 10 freshEditor).2).2).db.committed.marketDeals =
      [⟨1, 0, "0xBB", pyIntStr 6⟩] := by decide

/-- C4.  The claim says createItem("0xAA", 10, 1) on a fresh editor
completes and balancesForAccount("0xAA") then contains (1, 10).  The
source calls transfer_item with the integer sentinel 0x0 as
transfer_from, and int(0x0, base=16) raises TypeError before any write,
so the editor state is unchanged and the balance query stays empty. -/
theorem create_item_raises_type_error :
    BineContextEditor.create_item "0xAA" 10 1 freshEditor =
      (.error .typeError, freshEditor) ∧
    BineItemFeature.get_user_data "0xAA"
      ((BineContextEditor.create_item "0xAA" 10 1 freshEditor).2).db.committed.itemData =
      [] := by decide

/-- C3 counterexample.  The claim says a fill against a CANCELED lot is
rejected and leaves the lot unchanged.  After placing lot 0 and
canceling it, buy_lot(0, "0xBB", 4) succeeds, appends a deal, and moves
the lot to remaining −4 with status FILLED — a CANCELED → FILLED
transition. -/
theorem canceled_lot_accepts_fill :
    (BineContextEditor.buy_lot 0 "0xBB" 4
      (BineContextEditor.cancel_lot 0
        (BineContextEditor.place_lot "0xAA" 1 100 10 freshEditor).2)).1 = .ok () ∧
    findLot ((BineContextEditor.buy_lot 0 "0xBB" 4
      (BineContextEditor.cancel_lot 0
        (BineContextEditor.place_lot "0xAA" 1 100 10 freshEditor).2)).2).db.committed.marketLots 0 =
      some ⟨0, "0xAA", pyHex 1, pyIntStr 100, -4, "FILLED"⟩ ∧
    ((BineContextEditor.buy_lot 0 "0xBB" 4
      (BineContextEditor.cancel_lot 0
        (BineContextEditor.place_lot "0xAA" 1 100 10 freshEditor).2)).2).db.committed.marketDeals.length
      = 1 := by decide

/-- C9 counterexample.  The claim says get_items pairs each item with
the minimum over the numeric prices of its lots.  With lots priced 9
and 100 for item 1, the numeric minimum is 9, but MIN over the VARCHAR
price column compares strings, and "100" precedes "9", so the query
returns ("0x1", "100") and not the pair carrying price 9. -/
theorem get_items_min_is_not_numeric :
    BineMarketFeature.get_items lotTable9 = [(pyHex 1, pyIntStr 100)] ∧
    (pyHex 1, pyIntStr 9) ∉ BineMarketFeature.get_items lotTable9 ∧
    (∃ s ∈ lotTable9, s.item_id = pyHex 1 ∧ s.price = pyIntStr 9) ∧
    (9 : Int) < 100 := by decide

end Bine

namespace Bine

/-- Checkpoint table rows after n recorded blocks on a fresh editor. -/
def chkMeta : Nat → List MetaRow
  | 0 => []
  | n + 1 => [⟨"BineContextEditor", ((n + 1 : Nat) : Int)⟩]

/-- Upserting the next block number into the checkpoint rows of step k
yields the checkpoint rows of step k + 1. -/
theorem set_last_block_chkMeta (k : Nat) :
    SQLBasedHandler.set_last_block "BineContextEditor" ((k : Int) + 1) (chkMeta k) =
      chkMeta (k + 1) := by
  cases k with
  | zero =>
    simp [chkMeta, SQLBasedHandler.set_last_block]
  | succ j =>
    simp [chkMeta, SQLBasedHandler.set_last_block]

/-- State characterization of n add_block calls on a fresh editor. -/
theorem addBlocks_state (n : Nat) :
    addBlocks n freshEditor =
      ⟨⟨{ emptyTables with metaData := chkMeta n },
        { emptyTables with metaData := chkMeta n }⟩, -1, (n : Int)⟩ := by
  induction n with
  | zero => rfl
  | succ k ih =>
    rw [addBlocks, ih]
    simp only [BineContextEditor.add_block, BineContextEditor.commitEd,
      BineContextEditor.updMeta, commitDB]
    rw [set_last_block_chkMeta]
    have hcast : ((k + 1 : Nat) : Int) = (k : Int) + 1 := by push_cast; ring
    rw [hcast]

/-- C5.  get_last_block yields 0 for a monitor name with no checkpoint
row (and, being a total function of the table, never fails); and after
n add_block calls on a fresh editor the committed checkpoint table
holds the single upserted row for "BineContextEditor" with value n,
which get_last_block returns. -/
theorem checkpoint_tracker_spec :
    (∀ (t : List MetaRow) (name : String),
        (∀ r ∈ t, r.name ≠ name) →
        SQLBasedHandler.get_last_block name t = 0) ∧
    (∀ n : Nat,
        SQLBasedHandler.get_last_block "BineContextEditor"
          ((addBlocks n freshEditor).db.committed.metaData) = (n : Int) ∧
        ((addBlocks n freshEditor).db.committed.metaData) =
          (if n = 0 then []
           else [⟨"BineContextEditor", (n : Int)⟩])) := by
  constructor
  · intro t name h
    have hnone : t.find? (fun r => r.name == name) = none := by
      apply List.find?_eq_none.mpr
      intro r hr
      simp only [beq_iff_eq]
      exact h r hr
    rw [SQLBasedHandler.get_last_block, hnone]
  · intro n
    rw [addBlocks_state]
    cases n with
    | zero => simp [chkMeta, SQLBasedHandler.get_last_block]
    | succ k =>
      simp [chkMeta, SQLBasedHandler.get_last_block, List.find?_cons]

/-- Witness for checkpoint_tracker_spec: a table holding only a row for
another monitor yields 0. -/
theorem checkpoint_tracker_spec_witness :
    SQLBasedHandler.get_last_block "BineContextEditor" [⟨"OtherMonitor", 5⟩] = 0 :=
  checkpoint_tracker_spec.1 [⟨"OtherMonitor", 5⟩] "BineContextEditor" (by decide)

/-- The row updater of the cancel UPDATE is idempotent on the table. -/
theorem add_lot_canceled_idem (id : Int) (l : List LotRow) :
    BineMarketFeature.add_lot_canceled id (BineMarketFeature.add_lot_canceled id l) =
      BineMarketFeature.add_lot_canceled id l := by
  unfold BineMarketFeature.add_lot_canceled
  rw [List.map_map]
  apply List.map_congr_left
  intro r _
  by_cases h : r.lot_id = id
  · simp [h]
  · simp [h]

/-- C6.  cancel_lot on an existing lot leaves it with remaining amount
0 and status CANCELED regardless of prior status, and applying
cancel_lot twice yields the same editor state as applying it once. -/
theorem cancel_lot_unconditional_idempotent (st : EditorState) (id : Int)
    (r : LotRow) (h : findLot st.db.working.marketLots id = some r) :
    findLot ((BineContextEditor.cancel_lot id st).db.committed.marketLots) id =
      some { r with amount := 0, status := "CANCELED" } ∧
    BineContextEditor.cancel_lot id (BineContextEditor.cancel_lot id st) =
      BineContextEditor.cancel_lot id st := by
  constructor
  · have hpres : ∀ s : LotRow,
        ((fun q => if q.lot_id == id then
            { q with amount := 0, status := "CANCELED" } else q) s).lot_id = s.lot_id := by
      intro s
      by_cases hs : (s.lot_id == id) = true
      · simp [hs]
      · simp [hs]
    have hp := List.find?_some h
    simp only [BineContextEditor.cancel_lot, BineContextEditor.commitEd,
      BineContextEditor.updLots, commitDB, BineMarketFeature.add_lot_canceled, findLot]
    rw [find_map_lot _ hpres]
    rw [findLot] at h
    rw [h]
    have hp2 : r.lot_id = id := by simpa using hp
    simp [hp2]
  · have hidem := add_lot_canceled_idem id st.db.working.marketLots
    simp only [BineContextEditor.cancel_lot, BineContextEditor.commitEd,
      BineContextEditor.updLots, commitDB]
    rw [hidem]

/-- Witness for cancel_lot_unconditional_idempotent at lot 0 of a fresh
placement. -/
theorem cancel_lot_unconditional_idempotent_witness :
    findLot ((BineContextEditor.cancel_lot 0
        ((BineContextEditor.place_lot "0xAA" 1 100 10 freshEditor).2)).db.committed.marketLots) 0 =
      some ⟨0, "0xAA", pyHex 1, pyIntStr 100, 0, "CANCELED"⟩ ∧
    BineContextEditor.cancel_lot 0 (BineContextEditor.cancel_lot 0
        ((BineContextEditor.place_lot "0xAA" 1 100 10 freshEditor).2)) =
      BineContextEditor.cancel_lot 0
        ((BineContextEditor.place_lot "0xAA" 1 100 10 freshEditor).2) :=
  cancel_lot_unconditional_idempotent
    ((BineContextEditor.place_lot "0xAA" 1 100 10 freshEditor).2) 0
    ⟨0, "0xAA", pyHex 1, pyIntStr 100, 10, "ACTIVE"⟩ (by decide)

/-- C10.  remove_item with a nonzero hexadecimal owner always raises
TypeError: the debit write against (owner, item) reaches the working
state, then int(0x0, base=16) on the integer sentinel fails before
commit, leaving the committed state untouched. -/
theorem remove_item_always_type_error (st : EditorState) (owner : String)
    (amount item_id n : Int) (hp : parseHexStr owner = some n) (hn : n ≠ 0) :
    BineContextEditor.remove_item owner amount item_id st =
      (.error .typeError,
        BineContextEditor.updItems st
          (fun t => BineItemFeature.remove item_id owner amount t)) ∧
    ((BineContextEditor.remove_item owner amount item_id st).2).db.working.itemData =
      BineItemFeature.remove item_id owner amount st.db.working.itemData ∧
    ((BineContextEditor.remove_item owner amount item_id st).2).db.committed =
      st.db.committed := by
  have h1 : BineContextEditor.remove_item owner amount item_id st =
      (.error .typeError,
        BineContextEditor.updItems st
          (fun t => BineItemFeature.remove item_id owner amount t)) := by
    simp [BineContextEditor.remove_item, BineContextEditor.transfer_item, hp, hn]
  refine ⟨h1, ?_, ?_⟩
  · rw [h1]
    rfl
  · rw [h1]
    rfl

/-- Witness for remove_item_always_type_error: the seeded balance of 10
is debited (to 3 − 10 = −7) only in the working state, the committed
state stays empty, and the call reports TypeError. -/
theorem remove_item_always_type_error_witness :
    BineContextEditor.remove_item "0xAA" 3 1 seededEditor =
      (.error .typeError,
        BineContextEditor.updItems seededEditor
          (fun t => BineItemFeature.remove 1 "0xAA" 3 t)) ∧
    ((BineContextEditor.remove_item "0xAA" 3 1 seededEditor).2).db.working.itemData =
      BineItemFeature.remove 1 "0xAA" 3 seededEditor.db.working.itemData ∧
    ((BineContextEditor.remove_item "0xAA" 3 1 seededEditor).2).db.committed =
      seededEditor.db.committed :=
  remove_item_always_type_error seededEditor "0xAA" 3 1 170 (by decide) (by decide)

end Bine

namespace Bine

/-- Modelled from the spec: the Balance Ledger debit of section 4.2 —
"reads current balance, writes current − amount" on the row keyed by
(account, itemId).  Rows are created on first credit only (section 3),
so a debit of an absent key touches no row, as an UPDATE does. -/
def spec_debit (item_id : Int) (account : String) (amount : Int)
    (t : List ItemRow) : List ItemRow :=
  let c := BineItemFeature.get_amount item_id account t
  t.map (fun r =>
    if r.address == account && r.item == pyHex item_id then
      { r with amount := c - amount } else r)

/-- Modelled from the spec: the Balance Ledger credit of section 4.2 —
reads the current balance for (account, itemId), 0 if absent, writes
current + amount, creating the row on a first credit. -/
def spec_credit (item_id : Int) (account : String) (amount : Int)
    (t : List ItemRow) : List ItemRow :=
  let c := BineItemFeature.get_amount item_id account t
  if t.any (fun r => r.address == account && r.item == pyHex item_id) then
    t.map (fun r =>
      if r.address == account && r.item == pyHex item_id then
        { r with amount := c + amount } else r)
  else t ++ [⟨account, pyHex item_id, c + amount⟩]

/-- Modelled from the spec: the right-hand side of the section 8
property — debit(from, item, amt) followed by credit(to, item, amt). -/
def spec_debit_then_credit (ts fs : String) (amt item_id : Int)
    (t : List ItemRow) : List ItemRow :=
  spec_credit item_id ts amt (spec_debit item_id fs amt t)

/-- C7.  The claim says transfer_item with both addresses non-null
leaves the same store state as the spec's debit from the source
followed by the credit to the target.  With 0xAA holding 10 of item 1,
transferring 3 from 0xAA to 0xBB leaves 0xAA at 3 − 10 = −7 in the
code, while the spec's debit-then-credit leaves it at 10 − 3 = 7: the
two sides agree on the credited account but differ on the debited one,
because the source's remove binds its UPDATE parameter as
amount − current (the slip recorded at C1). -/
theorem transfer_item_differs_from_spec_debit_credit :
    ((BineContextEditor.transfer_item (.pyStr "0xBB") 3 (.pyStr "0xAA") 1 seededEditor).1 = .ok ()) ∧
    ((BineContextEditor.transfer_item (.pyStr "0xBB") 3 (.pyStr "0xAA") 1 seededEditor).2).db.committed.itemData =
      [⟨"0xAA", pyHex 1, -7⟩, ⟨"0xBB", pyHex 1, 3⟩] ∧
    spec_debit_then_credit "0xBB" "0xAA" 3 1 seededEditor.db.working.itemData =
      [⟨"0xAA", pyHex 1, 7⟩, ⟨"0xBB", pyHex 1, 3⟩] ∧
    ((BineContextEditor.transfer_item (.pyStr "0xBB") 3 (.pyStr "0xAA") 1 seededEditor).2).db.committed.itemData ≠
      spec_debit_then_credit "0xBB" "0xAA" 3 1 seededEditor.db.working.itemData := by decide

/-- Per-call behaviour of place_lot: the counter always advances by
one, and a successful call returns the new counter and has inserted the
ACTIVE lot with the requested amount under that identifier. -/
theorem place_lot_core (st : EditorState) (o : String) (i p a : Int) :
    ((BineContextEditor.place_lot o i p a st).2).lot_id = st.lot_id + 1 ∧
    ∀ n, (BineContextEditor.place_lot o i p a st).1 = .ok n →
      n = st.lot_id + 1 ∧
      findLot ((BineContextEditor.place_lot o i p a st).2).db.committed.marketLots n =
        some ⟨n, o, pyHex i, pyIntStr p, a, "ACTIVE"⟩ := by
  by_cases hdup :
      (st.db.working.marketLots.any (fun r => r.lot_id == st.lot_id + 1)) = true
  · have hres : BineContextEditor.place_lot o i p a st =
        (.error .integrityError, { st with lot_id := st.lot_id + 1 }) := by
      simp [BineContextEditor.place_lot, BineMarketFeature.add_lot_data, hdup]
    constructor
    · rw [hres]
    · intro n hn
      rw [hres] at hn
      simp at hn
  · have hfalse :
        st.db.working.marketLots.any (fun r => r.lot_id == st.lot_id + 1) = false := by
      cases hx : st.db.working.marketLots.any (fun r => r.lot_id == st.lot_id + 1)
      · rfl
      · exact absurd hx hdup
    have hnone :
        st.db.working.marketLots.find? (fun r => r.lot_id == st.lot_id + 1) = none := by
      apply List.find?_eq_none.mpr
      intro x hx hpx
      have histrue :
          st.db.working.marketLots.any (fun r => r.lot_id == st.lot_id + 1) = true :=
        List.any_eq_true.mpr ⟨x, hx, hpx⟩
      rw [histrue] at hfalse
      exact absurd hfalse (by simp)
    have hres : BineContextEditor.place_lot o i p a st =
        (.ok (st.lot_id + 1),
          BineContextEditor.commitEd (BineContextEditor.setWorking
            { st with lot_id := st.lot_id + 1 }
            { st.db.working with marketLots := st.db.working.marketLots ++
                [⟨st.lot_id + 1, o, pyHex i, pyIntStr p, a, "ACTIVE"⟩] })) := by
      simp [BineContextEditor.place_lot, BineMarketFeature.add_lot_data, hfalse]
    constructor
    · rw [hres]
      rfl
    · intro n hn
      rw [hres] at hn
      simp only at hn
      have hn2 : st.lot_id + 1 = n := by
        cases hn
        rfl
      subst hn2
      refine ⟨rfl, ?_⟩
      rw [hres]
      simp only [BineContextEditor.commitEd, BineContextEditor.setWorking, commitDB, findLot]
      rw [find_append_right _ _ _ hnone]
      rw [if_pos (by simp)]

/-- C8.  place_lot advances the per-editor identifier by one on every
call, returns the new identifier on success together with the inserted
ACTIVE lot carrying the requested amount, two successive successful
calls return strictly increasing identifiers, and the first place_lot
on a fresh editor returns lot id 0. -/
theorem place_lot_spec :
    (∀ (st : EditorState) (o : String) (i p a : Int),
        ((BineContextEditor.place_lot o i p a st).2).lot_id = st.lot_id + 1 ∧
        ∀ n, (BineContextEditor.place_lot o i p a st).1 = .ok n →
          n = st.lot_id + 1 ∧
          findLot ((BineContextEditor.place_lot o i p a st).2).db.committed.marketLots n =
            some ⟨n, o, pyHex i, pyIntStr p, a, "ACTIVE"⟩) ∧
    (∀ (st : EditorState) (o o2 : String) (i p a i2 p2 a2 n n2 : Int),
        (BineContextEditor.place_lot o i p a st).1 = .ok n →
        (BineContextEditor.place_lot o2 i2 p2 a2
            ((BineContextEditor.place_lot o i p a st).2)).1 = .ok n2 →
        n < n2) ∧
    (BineContextEditor.place_lot "0xAA" 1 100 10 freshEditor).1 = .ok 0 := by
  refine ⟨place_lot_core, ?_, by decide⟩
  intro st o o2 i p a i2 p2 a2 n n2 h1 h2
  have e1 := ((place_lot_core st o i p a).2 n h1).1
  have ec := (place_lot_core st o i p a).1
  have e2 := ((place_lot_core ((BineContextEditor.place_lot o i p a st).2) o2 i2 p2 a2).2 n2 h2).1
  rw [ec] at e2
  omega

/-- Witness for place_lot_spec: the first placement on a fresh editor
inserts lot 0 as ACTIVE with amount 10. -/
theorem place_lot_spec_witness :
    findLot ((BineContextEditor.place_lot "0xAA" 1 100 10 freshEditor).2).db.committed.marketLots 0 =
      some ⟨0, "0xAA", pyHex 1, pyIntStr 100, 10, "ACTIVE"⟩ := by
  have h := (place_lot_spec.1 freshEditor "0xAA" 1 100 10).2 0 (by decide)
  exact h.2

end Bine

namespace Bine

/-- C3 amended.  FILLED and CANCELED are not terminal in the code: a
fill against any existing lot — of any status, FILLED and CANCELED
included, and any remaining amount — is accepted and processed
identically: the deal row is appended and the lot moves to remaining
r − a with status PARTIALLY_FILLED when (r − a) − a > 0 and FILLED
otherwise.  In particular a fill of a > 0 against a CANCELED lot with
remaining 0 yields remaining −a with status FILLED, a CANCELED →
FILLED transition (the counterexample theorem above exhibits it). -/
theorem fill_ignores_terminal_status (st : EditorState) (id a : Int)
    (buyer : String) (r : LotRow)
    (hfind : findLot st.db.working.marketLots id = some r) :
    (BineContextEditor.buy_lot id buyer a st).1 = .ok () ∧
    findLot ((BineContextEditor.buy_lot id buyer a st).2).db.committed.marketLots id =
      some { r with amount := r.amount - a,
                    status := if r.amount - a - a > 0 then "PARTIALLY_FILLED"
                              else "FILLED" } ∧
    ((BineContextEditor.buy_lot id buyer a st).2).db.committed.marketDeals =
      st.db.working.marketDeals ++
        [⟨st.db.working.nextDealId, id, buyer, pyIntStr a⟩] := by
  rw [findLot] at hfind
  have hp := List.find?_some hfind
  have hmem := List.mem_of_find?_eq_some hfind
  have hany : (st.db.working.marketLots.any (fun q => q.lot_id == id)) = true :=
    List.any_eq_true.mpr ⟨r, hmem, hp⟩
  have hres : BineContextEditor.buy_lot id buyer a st =
      (.ok (), BineContextEditor.commitEd (BineContextEditor.setWorking st
        { st.db.working with
            marketDeals := st.db.working.marketDeals ++
              [⟨st.db.working.nextDealId, id, buyer, pyIntStr a⟩],
            nextDealId := st.db.working.nextDealId + 1,
            marketLots := st.db.working.marketLots.map (fun q =>
              if q.lot_id == id then BineMarketFeature.lotFillRow a q else q) })) := by
    simp [BineContextEditor.buy_lot, BineMarketFeature.add_lot_bought_data, hany]
  have hpres : ∀ s : LotRow,
      ((fun q => if q.lot_id == id then BineMarketFeature.lotFillRow a q else q) s).lot_id
        = s.lot_id := by
    intro s
    by_cases hs : (s.lot_id == id) = true
    · simp [hs, BineMarketFeature.lotFillRow]
    · simp [hs]
  refine ⟨by rw [hres], ?_, by rw [hres]; rfl⟩
  rw [hres]
  simp only [BineContextEditor.commitEd, BineContextEditor.setWorking, commitDB, findLot]
  rw [find_map_lot _ hpres]
  rw [hfind]
  have hp2 : r.lot_id = id := by simpa using hp
  simp [hp2, BineMarketFeature.lotFillRow]

/-- Editor state whose lot 0 was filled 6 of 10 and so is FILLED with
remaining 4. -/
def filledEditor : EditorState :=
  (BineContextEditor.buy_lot 0 "0xBB" 6
    ((BineContextEditor.place_lot "0xAA" 1 100 10 freshEditor).2)).2

/-- The FILLED lot row held by filledEditor. -/
def filledRow : LotRow := ⟨0, "0xAA", pyHex 1, pyIntStr 100, 4, "FILLED"⟩

/-- Witness for fill_ignores_terminal_status: a further fill of 2
against the FILLED lot 0 is accepted and processed like any fill. -/
theorem fill_ignores_terminal_status_witness :
    (BineContextEditor.buy_lot 0 "0xCC" 2 filledEditor).1 = .ok () ∧
    findLot ((BineContextEditor.buy_lot 0 "0xCC" 2 filledEditor).2).db.committed.marketLots 0 =
      some { filledRow with amount := filledRow.amount - 2,
                            status := (if filledRow.amount - 2 - 2 > 0
                                       then "PARTIALLY_FILLED" else "FILLED") } ∧
    ((BineContextEditor.buy_lot 0 "0xCC" 2 filledEditor).2).db.committed.marketDeals =
      filledEditor.db.working.marketDeals ++
        [⟨filledEditor.db.working.nextDealId, 0, "0xCC", pyIntStr 2⟩] :=
  fill_ignores_terminal_status filledEditor 0 2 "0xCC" filledRow (by decide)

/-- C9 amended.  For every item that has at least one lot, get_items
contains the pair of that item with the least stored price string under
the collation (lexicographic) order — the minimum MIN computes over the
VARCHAR price column — over all lots of the item regardless of their
status. -/
theorem get_items_string_min (l : List LotRow) (r : LotRow) (hr : r ∈ l) :
    ∃ m, (r.item_id, m) ∈ BineMarketFeature.get_items l ∧
      (∃ s, s ∈ l ∧ s.item_id = r.item_id ∧ s.price = m) ∧
      (∀ s, s ∈ l → s.item_id = r.item_id → strLt s.price m = false) := by
  have hrf : r ∈ l.filter (fun s => s.item_id == r.item_id) :=
    List.mem_filter.mpr ⟨hr, by simp⟩
  cases hfm : (l.filter (fun s => s.item_id == r.item_id)).map (fun s => s.price) with
  | nil =>
    exfalso
    have hnil : l.filter (fun s => s.item_id == r.item_id) = [] :=
      List.map_eq_nil_iff.mp hfm
    rw [hnil] at hrf
    exact absurd hrf (List.not_mem_nil r)
  | cons p rest =>
    refine ⟨rest.foldl strMin p, ?_, ?_, ?_⟩
    · simp only [BineMarketFeature.get_items]
      apply List.mem_filterMap.mpr
      refine ⟨r.item_id, List.mem_dedup.mpr (List.mem_map_of_mem _ hr), ?_⟩
      rw [hfm]
      rfl
    · have hmem : rest.foldl strMin p ∈ p :: rest := by
        rcases foldl_strMin_mem rest p with h | h
        · rw [h]
          exact List.mem_cons_self p rest
        · exact List.mem_cons_of_mem p h
      rw [← hfm] at hmem
      obtain ⟨s, hs, hsp⟩ := List.mem_map.mp hmem
      obtain ⟨hsl, hsk⟩ := List.mem_filter.mp hs
      exact ⟨s, hsl, by simpa using hsk, hsp⟩
    · intro s hs hsk
      have hsf : s ∈ l.filter (fun q => q.item_id == r.item_id) :=
        List.mem_filter.mpr ⟨hs, by simp [hsk]⟩
      have hpm : s.price ∈ p :: rest := by
        rw [← hfm]
        exact List.mem_map_of_mem _ hsf
      obtain ⟨h1, h2⟩ := foldl_strMin_least rest p
      rcases List.mem_cons.mp hpm with he | he
      · rw [he]
        exact h1
      · exact h2 _ he

/-- The lot row with price 9 inside lotTable9. -/
def row9 : LotRow := ⟨0, "0xAA", pyHex 1, pyIntStr 9, 5, "ACTIVE"⟩

/-- Witness for get_items_string_min on the two-lot order book with
prices 9 and 100. -/
theorem get_items_string_min_witness :
    ∃ m, (row9.item_id, m) ∈ BineMarketFeature.get_items lotTable9 ∧
      (∃ s, s ∈ lotTable9 ∧ s.item_id = row9.item_id ∧ s.price = m) ∧
      (∀ s, s ∈ lotTable9 → s.item_id = row9.item_id → strLt s.price m = false) :=
  get_items_string_min lotTable9 row9 (by decide)

end Bine
